import Mathlib

/-!
Verification development for the Fossil SCM build step
(`buildbot_fossil/steps.py`): a shallow embedding of the checkout
reconciliation engine (`Fossil.run_vc` and its helper methods) as a state
monad over an environment that answers each remote command, together with
theorems about the engine's command sequences, fallback cascade, version
probing and status parsing.

Modelling conventions:
- Remote shell commands (`Fossil.fossil`) and file operations
  (`runRmdir`, `runMkdir`, `runRmFile`, `pathExists`) consult an
  environment `Env` that maps the trace of commands issued so far, plus
  the command being issued, to a response.  This models the buildbot
  test harness's scripted `ExpectShell`/`Expect` responses.
- Python exceptions used for control flow (`WorkerSetupError`,
  `BuildStepFailed`, `BuildStepCancelled`, and run-time errors raised by
  `json.loads` or key lookups) are modelled by the `Exn` error type of
  the monad; the buildbot framework maps them to step outcomes in
  `runStep`.
- Logging (`msg`, `stdio_log`, `logEnviron`) has no observable effect on
  command choice or results and is elided.
- Character classes of Python's `re` module (`\d`, `\s`) are modelled on
  the ASCII range, which covers all output the remote tool produces.
-/

/-- Result classification of a buildbot command or step
(`buildbot.process.results`). -/
inductive Results where
  | success
  | warnings
  | failure
  | skipped
  | exception
  | retry
  | cancelled
deriving DecidableEq, Repr

/-- Checkout method for full mode: one of `Fossil.possible_methods`. -/
inductive Method where
  | fresh
  | copy
  | clobber
deriving DecidableEq, Repr

/-- Checkout mode; in full mode a validated `method` is always present
(the constructor validation in `Fossil.__init__` rejects every other
combination before any command is issued). -/
inductive Mode where
  | incremental
  | full (method : Method)
deriving DecidableEq, Repr

/-- Remote commands issued by the step: shell commands (with their worker
working directory and argv) and the file operations of the buildbot
source-step API. -/
inductive Cmd where
  | shell (wd : String) (args : List String)
  | stat (file : String)
  | rmdir (dir : String)
  | mkdir (dir : String)
  | rmfile (file : String)
deriving DecidableEq, Repr

/-- Response to one remote shell command: its result classification and
its captured standard output. -/
structure ShellResp where
  results : Results
  stdout : String
deriving DecidableEq, Repr

/-- Environment answering remote commands.  Both fields receive the trace
of commands already issued, so responses may depend on history. -/
structure Env where
  shellResp : List Cmd → String → List String → ShellResp
  fileOk : List Cmd → Cmd → Bool

/-- Python exceptions that escape the step methods. -/
inductive Exn where
  | workerSetup (msg : String)
  | stepFailed
  | stepCancelled
  | pythonError
deriving DecidableEq, Repr

/-- JSON values, the universe of property values published by
`updateSourceProperty` (a plain string from the regex path is `Json.str`,
a split tag list is an array of strings, and the structured-status path
stores the decoded JSON values directly, exactly as the Python code
stores the corresponding Python objects). -/
inductive Json where
  | null
  | bool (b : Bool)
  | num (raw : String)
  | str (s : String)
  | arr (elts : List Json)
  | obj (fields : List (String × Json))

/-- Mutable state of one step execution: the trace of commands issued so
far, the published source properties, and the instance attributes set
during the run (`repopath`, `fossil_version`, `fossil_json`). -/
structure St where
  trace : List Cmd
  props : List (String × Json)
  repopath : String
  fossil_version : Option Nat
  fossil_json : Option Nat

/-- Step computations: state-and-exception monad over the environment. -/
def M (α : Type) : Type := Env → St → Except Exn α × St

/-- Return a value without issuing commands. -/
def Mpure {α : Type} (a : α) : M α := fun _ s => (Except.ok a, s)

/-- Sequence two computations, short-circuiting on an exception. -/
def Mbind {α β : Type} (m : M α) (k : α → M β) : M β := fun env s =>
  match m env s with
  | (Except.ok a, s') => k a env s'
  | (Except.error e, s') => (Except.error e, s')

instance : Monad M where
  pure := @Mpure
  bind := @Mbind

/-- Read the current state. -/
def getSt : M St := fun _ s => (Except.ok s, s)

/-- Update the current state. -/
def modifySt (f : St → St) : M Unit := fun _ s => (Except.ok (), f s)

/-- Raise a Python exception. -/
def mthrow {α : Type} (e : Exn) : M α := fun _ s => (Except.error e, s)

/-- Publish a source property (`updateSourceProperty`). -/
def setProp (name : String) (v : Json) : M Unit :=
  modifySt (fun s => { s with props := s.props ++ [(name, v)] })

/-- Run a fossil command on the worker (`Fossil.fossil`): issue the shell
command `fossil args` in `wd`, and raise `BuildStepCancelled` as soon as
a command's result classification is `CANCELLED`. -/
def fossil (wd : String) (args : List String) : M ShellResp := fun env s =>
  let argv := "fossil" :: args
  let r := env.shellResp s.trace wd argv
  let s' := { s with trace := s.trace ++ [Cmd.shell wd argv] }
  if r.results = Results.cancelled then (Except.error Exn.stepCancelled, s')
  else (Except.ok r, s')

/-- Issue a `stat` command to test whether a path exists on the worker
(`buildstep.pathExists`). -/
def pathExists (p : String) : M Bool := fun env s =>
  let c := Cmd.stat p
  (Except.ok (env.fileOk s.trace c), { s with trace := s.trace ++ [c] })

/-- Issue one of the file-operation commands; on failure raise
`BuildStepFailed` when `abandonOnFailure` is set, as the buildbot
`runRmdir`/`runMkdir`/`runRmFile` helpers do. -/
def runFileOp (c : Cmd) (abandonOnFailure : Bool) : M Bool := fun env s =>
  let ok := env.fileOk s.trace c
  let s' := { s with trace := s.trace ++ [c] }
  if !ok && abandonOnFailure then (Except.error Exn.stepFailed, s')
  else (Except.ok ok, s')

/-- Delete a directory tree on the worker. -/
def runRmdir (d : String) : M Bool := runFileOp (Cmd.rmdir d) true

/-- Create a directory on the worker. -/
def runMkdir (d : String) : M Bool := runFileOp (Cmd.mkdir d) true

/-- Delete a file on the worker. -/
def runRmFile (f : String) (abandonOnFailure : Bool) : M Bool :=
  runFileOp (Cmd.rmfile f) abandonOnFailure

/-! String helpers modelling the Python operations used by the step. -/

/-- Decimal digit, Python regex class `\d` (ASCII range). -/
def isPyDigit (c : Char) : Bool := '0' ≤ c && c ≤ '9'

/-- Whitespace, Python regex class `\s` (ASCII range). -/
def isPyWS (c : Char) : Bool :=
  c = ' ' || c = '\t' || c = '\n' || c = '\r' || c = '\x0b' || c = '\x0c'

/-- Lowercase hexadecimal digit, the regex class `[0-9a-f]`. -/
def isHexLower (c : Char) : Bool := isPyDigit c || ('a' ≤ c && c ≤ 'f')

/-- Value of a string of decimal digits, Python `int(v)` on the strings
produced by the version regex. -/
def strToNat (cs : List Char) : Nat :=
  cs.foldl (fun n c => n * 10 + (c.toNat - 48)) 0

/-- Python `str.split(".")`: split on every dot, keeping empty pieces. -/
def splitDot (acc : List Char) : List Char → List (List Char)
  | [] => [acc.reverse]
  | c :: rest =>
    if c = '.' then acc.reverse :: splitDot [] rest else splitDot (c :: acc) rest

/-- Python `str.split(", ")`: split on every comma-space, left to right,
keeping empty pieces. -/
def splitCommaSpace (acc : List Char) : List Char → List (List Char)
  | [] => [acc.reverse]
  | ',' :: ' ' :: rest => acc.reverse :: splitCommaSpace [] rest
  | c :: rest => splitCommaSpace (c :: acc) rest

/-- Python `str.rstrip("\\/")` as used to derive `repopath` from
`workdir`. -/
def rstripSlashes (s : String) : String :=
  String.mk ((s.data.reverse.dropWhile (fun c => c = '\\' || c = '/')).reverse)

/-- Consume the greedy `(\.\d+)+` tail of the version regex: repeated
groups of a dot followed by at least one digit.  Returns the consumed
characters and the rest.  `fuel` bounds the recursion and is always
called with the length of the input. -/
def takeDotGroups (fuel : Nat) (cs : List Char) : List Char × List Char :=
  match fuel with
  | 0 => ([], cs)
  | fuel + 1 =>
    match cs with
    | c :: rest =>
      if c = '.' then
        let ds := rest.takeWhile isPyDigit
        if ds.isEmpty then ([], cs)
        else
          let pr := takeDotGroups fuel (rest.drop ds.length)
          ('.' :: (ds ++ pr.1), pr.2)
      else ([], cs)
    | [] => ([], cs)

/-- Group 1 of `re.match(r"This is fossil version (\d+(\.\d+)+)", out)`:
the literal prefix anchored at the start of the output, then a greedy
run of digits, then at least one greedy dot-digits group. -/
def versionCapture (out : String) : Option (List Char) :=
  let lit := "This is fossil version ".data
  let cs := out.data
  if cs.take lit.length = lit then
    let rest := cs.drop lit.length
    let d1 := rest.takeWhile isPyDigit
    if d1.isEmpty then none
    else
      let rest2 := rest.drop d1.length
      let pr := takeDotGroups rest2.length rest2
      if pr.1.isEmpty then none else some (d1 ++ pr.1)
  else none

/-- Encoding of a captured version string, from `check_fossil_version`:
`sum(int(v) * s for v, s in zip(match[1].split("."), (10000, 100, 1)))`. -/
def fossilVersionNumber (ver : List Char) : Nat :=
  (((splitDot [] ver).zip [10000, 100, 1]).map
    (fun p => strToNat p.1 * p.2)).foldl (· + ·) 0

/-- Match of `re.search(r"^JSON \(API (\d+)\)$", out, re.MULTILINE)`
against one line: the whole line must be `JSON (API <digits>)` (the
greedy `\d+` followed by the literal `)` and the line anchor). -/
def jsonApiLine (line : List Char) : Option Nat :=
  let lit := "JSON (API ".data
  if line.take lit.length = lit then
    let rest := line.drop lit.length
    let ds := rest.takeWhile isPyDigit
    if ds.isEmpty then none
    else if rest.drop ds.length = [')'] then some (strToNat ds) else none
  else none

/-- Python `str.split("\n")`, for scanning multiline-anchored full-line
patterns. -/
def splitNl (acc : List Char) : List Char → List (List Char)
  | [] => [acc.reverse]
  | '\n' :: rest => acc.reverse :: splitNl [] rest
  | c :: rest => splitNl (c :: acc) rest

/-- Leftmost match of the JSON API advertisement line in the version
probe output. -/
def findJsonApi (out : String) : Option Nat :=
  (splitNl [] out.data).findSome? jsonApiLine

/-- Multiline search: try the anchored matcher `f` at position 0 and
after every newline, leftmost match first. -/
def searchFrom {α : Type} (f : List Char → Option α) : List Char → Option α
  | [] => none
  | c :: rest =>
    if c = '\n' then
      match f rest with
      | some a => some a
      | none => searchFrom f rest
    else searchFrom f rest

/-- Leftmost multiline-anchored match of `f` in `cs`
(`re.search(..., re.MULTILINE)` for a `^`-anchored pattern). -/
def searchML {α : Type} (f : List Char → Option α) (cs : List Char) : Option α :=
  match f cs with
  | some a => some a
  | none => searchFrom f cs

/-- Anchored match of `checkout:\s+([0-9a-f]+)`: the label, at least one
whitespace character (greedy), then the greedy hexadecimal capture.
Shrinking the whitespace run can never make the hex class match (the two
classes are disjoint), so the greedy run is the only candidate. -/
def matchCheckoutAt (cs : List Char) : Option (List Char) :=
  let lit := "checkout:".data
  if cs.take lit.length = lit then
    let rest := cs.drop lit.length
    let ws := rest.takeWhile isPyWS
    if ws.isEmpty then none
    else
      let hx := (rest.drop ws.length).takeWhile isHexLower
      if hx.isEmpty then none else some hx
  else none

/-- Backtracking over the length of the `\s+` run in the tags pattern:
try the greedy run first, then shorter runs, until the following `.+`
can match (there is a character there other than a newline).  The
capture is then the rest of that line. -/
def tagsTry (rest : List Char) : Nat → Option (List Char)
  | 0 => none
  | w + 1 =>
    match rest.drop (w + 1) with
    | c :: _ =>
      if c = '\n' then tagsTry rest w
      else some ((rest.drop (w + 1)).takeWhile (fun c => c ≠ '\n'))
    | [] => tagsTry rest w

/-- Anchored match of `tags:\s+(.+)$`: the label, at least one
whitespace character, then a nonempty capture running to the end of the
line. -/
def matchTagsAt (cs : List Char) : Option (List Char) :=
  let lit := "tags:".data
  if cs.take lit.length = lit then
    let rest := cs.drop lit.length
    let ws := rest.takeWhile isPyWS
    if ws.isEmpty then none else tagsTry rest ws.length
  else none

/-- Group 1 of `re.search(r"^checkout:\s+([0-9a-f]+)", out, re.MULTILINE)`. -/
def searchCheckout (out : String) : Option (List Char) :=
  searchML matchCheckoutAt out.data

/-- Group 1 of `re.search(r"^tags:\s+(.+)$", out, re.MULTILINE)`. -/
def searchTags (out : String) : Option (List Char) :=
  searchML matchTagsAt out.data

/-! Model of `json.loads` on the JSON subset the remote tool emits
(surrogate-pair combination in `\u` escapes is elided; `Json.num` keeps
the raw numeral).  Failure to decode models the `JSONDecodeError` /
`KeyError` / `TypeError` exceptions of the Python code. -/

/-- JSON whitespace between tokens. -/
def jsonSkipWs : List Char → List Char :=
  List.dropWhile (fun c => c = ' ' || c = '\t' || c = '\n' || c = '\r')

/-- Value of one hexadecimal digit of a `\u` escape. -/
def hexDigitVal (c : Char) : Option Nat :=
  if '0' ≤ c && c ≤ '9' then some (c.toNat - 48)
  else if 'a' ≤ c && c ≤ 'f' then some (c.toNat - 87)
  else if 'A' ≤ c && c ≤ 'F' then some (c.toNat - 55)
  else none

/-- Decode the body of a JSON string after its opening quote, handling
escapes; returns the decoded characters and the input after the closing
quote. -/
def jsonStrChars (fuel : Nat) (cs : List Char) : Option (List Char × List Char) :=
  match fuel, cs with
  | 0, _ => none
  | _, [] => none
  | fuel + 1, c :: rest =>
    if c = '"' then some ([], rest)
    else if c = '\\' then
      match rest with
      | [] => none
      | e :: rest' =>
        let dec : Option (Char × List Char) :=
          if e = '"' then some ('"', rest')
          else if e = '\\' then some ('\\', rest')
          else if e = '/' then some ('/', rest')
          else if e = 'b' then some ('\x08', rest')
          else if e = 'f' then some ('\x0c', rest')
          else if e = 'n' then some ('\n', rest')
          else if e = 'r' then some ('\r', rest')
          else if e = 't' then some ('\t', rest')
          else if e = 'u' then
            match rest' with
            | a :: b :: c2 :: d :: rest2 =>
              match hexDigitVal a, hexDigitVal b, hexDigitVal c2, hexDigitVal d with
              | some va, some vb, some vc, some vd =>
                some (Char.ofNat (((va * 16 + vb) * 16 + vc) * 16 + vd), rest2)
              | _, _, _, _ => none
            | _ => none
          else none
        match dec with
        | some (ch, rest2) =>
          match jsonStrChars fuel rest2 with
          | some (s, r) => some (ch :: s, r)
          | none => none
        | none => none
    else
      match jsonStrChars fuel rest with
      | some (s, r) => some (c :: s, r)
      | none => none

/-- Decode a JSON numeral (optional sign, integer part, optional
fraction, optional exponent), returning its raw characters. -/
def jsonNumChars (cs : List Char) : Option (List Char × List Char) :=
  let (sign, cs1) : List Char × List Char :=
    match cs with
    | '-' :: r => (['-'], r)
    | _ => ([], cs)
  let ds := cs1.takeWhile isPyDigit
  if ds.isEmpty then none
  else
    let cs2 := cs1.drop ds.length
    let (frac, cs3) : List Char × List Char :=
      match cs2 with
      | '.' :: r =>
        let fs := r.takeWhile isPyDigit
        if fs.isEmpty then ([], cs2) else ('.' :: fs, r.drop fs.length)
      | _ => ([], cs2)
    let (ex, cs4) : List Char × List Char :=
      match cs3 with
      | e :: r =>
        if e = 'e' || e = 'E' then
          let (es, r2) : List Char × List Char :=
            match r with
            | s :: r' => if s = '+' || s = '-' then ([s], r') else ([], r)
            | [] => ([], r)
          let xs := r2.takeWhile isPyDigit
          if xs.isEmpty then ([], cs3) else (e :: (es ++ xs), r2.drop xs.length)
        else ([], cs3)
      | [] => ([], cs3)
    some (sign ++ ds ++ frac ++ ex, cs4)

mutual

/-- Decode one JSON value. -/
def jsonVal : Nat → List Char → Option (Json × List Char)
  | 0, _ => none
  | fuel + 1, cs =>
    match jsonSkipWs cs with
    | [] => none
    | c :: rest =>
      if c = '"' then
        match jsonStrChars rest.length rest with
        | some (s, r) => some (Json.str (String.mk s), r)
        | none => none
      else if c = '{' then jsonMembers fuel (jsonSkipWs rest) true []
      else if c = '[' then jsonElems fuel (jsonSkipWs rest) true []
      else
        match c :: rest with
        | 't' :: 'r' :: 'u' :: 'e' :: r => some (Json.bool true, r)
        | 'f' :: 'a' :: 'l' :: 's' :: 'e' :: r => some (Json.bool false, r)
        | 'n' :: 'u' :: 'l' :: 'l' :: r => some (Json.null, r)
        | cs' =>
          match jsonNumChars cs' with
          | some (n, r) => some (Json.num (String.mk n), r)
          | none => none

/-- Decode the elements of a JSON array after its opening bracket. -/
def jsonElems : Nat → List Char → Bool → List Json → Option (Json × List Char)
  | 0, _, _, _ => none
  | fuel + 1, cs, first, acc =>
    match cs, first with
    | ']' :: rest, true => some (Json.arr [], rest)
    | _, _ =>
      match jsonVal fuel cs with
      | none => none
      | some (v, rest) =>
        match jsonSkipWs rest with
        | ',' :: rest2 => jsonElems fuel rest2 false (v :: acc)
        | ']' :: rest2 => some (Json.arr (v :: acc).reverse, rest2)
        | _ => none

/-- Decode the members of a JSON object after its opening brace. -/
def jsonMembers : Nat → List Char → Bool → List (String × Json) → Option (Json × List Char)
  | 0, _, _, _ => none
  | fuel + 1, cs, first, acc =>
    match cs, first with
    | '}' :: rest, true => some (Json.obj [], rest)
    | _, _ =>
      match jsonSkipWs cs with
      | '"' :: rest =>
        match jsonStrChars rest.length rest with
        | none => none
        | some (k, rest2) =>
          match jsonSkipWs rest2 with
          | ':' :: rest3 =>
            match jsonVal fuel rest3 with
            | none => none
            | some (v, rest4) =>
              match jsonSkipWs rest4 with
              | ',' :: rest5 => jsonMembers fuel rest5 false ((String.mk k, v) :: acc)
              | '}' :: rest5 => some (Json.obj ((String.mk k, v) :: acc).reverse, rest5)
              | _ => none
          | _ => none
      | _ => none

end

/-- Python `json.loads`: decode a single value and require only
whitespace after it. -/
def jsonLoads (s : String) : Option Json :=
  match jsonVal (2 * (s.data.length + 1)) s.data with
  | some (v, rest) => if (jsonSkipWs rest).isEmpty then some v else none
  | none => none

/-- Python `d[k]` on a decoded JSON value: defined only on objects;
duplicate keys are overwritten left to right as in a Python dict. -/
def jsonGet : Json → String → Option Json
  | Json.obj fields, k => ((fields.filter (fun p => p.1 = k)).getLast?).map (fun p => p.2)
  | _, _ => none

/-- Model of `json.loads(stdout)["payload"]["checkout"]` followed by the
`"uuid"` and `"tags"` lookups in `fossil_status`; `none` models the
exception the Python code raises on a malformed payload. -/
def jsonCheckoutFields (out : String) : Option (Json × Json) :=
  match jsonLoads out with
  | none => none
  | some v =>
    match jsonGet v "payload" with
    | none => none
    | some p =>
      match jsonGet p "checkout" with
      | none => none
      | some c =>
        match jsonGet c "uuid", jsonGet c "tags" with
        | some uuid, some tags => some (uuid, tags)
        | _, _ => none

/-! The Fossil source step itself, translated method by method from
`buildbot_fossil/steps.py`. -/

/-- First Fossil version that supports `open --workdir`. -/
def HAS_OPEN_WORKDIR : Nat := 21200

/-- Worker-OS path syntax helpers (`self.build.path_module`). -/
structure PathModule where
  join : String → String → String
  split : String → String × String

/-- Immutable per-build configuration of the step, after the constructor
validation of `Fossil.__init__` has accepted it. -/
structure FossilCfg where
  repourl : String
  mode : Mode
  workdir : String
  pathModule : PathModule

/-- Truthiness of an optional string parameter, Python `if revision:` /
`if branch:` (absent or empty means false). -/
def pyTruthy : Option String → Bool
  | none => false
  | some s => s ≠ ""

/-- Translation of `Fossil.check_fossil_version`: probe the worker's
fossil executable, parse the version into `fossil_version` and the JSON
API advertisement into `fossil_json`. -/
def check_fossil_version : M Results := do
  let cmd ← fossil "." ["version", "-verbose"]
  if cmd.results = Results.failure then
    mthrow (Exn.workerSetup "fossil is not installed on worker")
  else if cmd.results ≠ Results.success then
    pure cmd.results
  else
    match versionCapture cmd.stdout with
    | none => mthrow (Exn.workerSetup "unrecognized fossil version")
    | some ver => do
      modifySt (fun s => { s with fossil_version := some (fossilVersionNumber ver) })
      modifySt (fun s => { s with fossil_json := some ((findJsonApi cmd.stdout).getD 0) })
      pure Results.success

/-- Translation of `Fossil.update_repo`: pull into the repo file; any
non-`FAILURE` pull result is returned as is.  On a failed pull, check
whether the repo file exists: if it does, raise `BuildStepFailed`
(unrecoverable), otherwise report `FAILURE` (missing repo). -/
def update_repo (cfg : FossilCfg) : M Results := do
  let st ← getSt
  let cmd ← fossil "." ["pull", cfg.repourl, "-R", st.repopath]
  if cmd.results ≠ Results.failure then
    pure cmd.results
  else do
    let repo_exists ← pathExists st.repopath
    if repo_exists then mthrow Exn.stepFailed
    else pure Results.failure

/-- Translation of `Fossil.fossil_open`: open the repo file into the
workdir, with the single-command form when the fossil version supports
`open --workdir` and the mkdir-then-relative-open form otherwise. -/
def fossil_open (cfg : FossilCfg) : M Results := do
  let st ← getSt
  if st.fossil_version.getD 0 ≥ HAS_OPEN_WORKDIR then do
    let cmd ← fossil "." ["open", st.repopath, "--workdir", cfg.workdir, "--empty"]
    pure cmd.results
  else do
    let _ ← runMkdir cfg.workdir
    let repo := cfg.pathModule.join ".." (cfg.pathModule.split st.repopath).2
    let cmd ← fossil cfg.workdir ["open", repo, "--empty"]
    pure cmd.results

/-- Tail of `Fossil.full_clean` from the `if method == "copy"` test on:
delete the whole workdir and reopen it from the repo file. -/
def full_clean_copy (cfg : FossilCfg) (method : Method) : M Results := do
  if method = Method.copy then do
    let _ ← runRmdir cfg.workdir
    let res ← fossil_open cfg
    if res ≠ Results.success then pure res else pure Results.success
  else
    pure Results.success

/-- Middle of `Fossil.full_clean` from the `if method == "fresh"` test
on: clean, then revert only if the clean succeeded; if the last of those
commands failed, fall back to the copy method, otherwise return its
result. -/
def full_clean_fresh (cfg : FossilCfg) (method : Method) : M Results := do
  if method = Method.fresh then do
    let cmd ← fossil cfg.workdir ["clean", "--verily"]
    let cmd2 ←
      if cmd.results = Results.success then fossil cfg.workdir ["revert"]
      else pure cmd
    if cmd2.results = Results.failure then
      full_clean_copy cfg Method.copy
    else
      pure cmd2.results
  else
    full_clean_copy cfg method

/-- Translation of `Fossil.full_clean`: validate the repo (unless the
caller already did, or the method is clobber), demote the method to
clobber when the repo is not good, clone on clobber (continuing as copy
on clone success), then the fresh and copy phases. -/
def full_clean (cfg : FossilCfg) (method0 : Method) (repo_status0 : Option Results) :
    M Results := do
  let st ← getSt
  let method1 ←
    if method0 = Method.clobber then do
      let _ ← runRmFile st.repopath false
      pure Method.clobber
    else do
      let rs ←
        match repo_status0 with
        | some r => pure r
        | none => update_repo cfg
      pure (if rs ≠ Results.success then Method.clobber else method0)
  if method1 = Method.clobber then do
    let cmd ← fossil "." ["clone", cfg.repourl, st.repopath]
    if cmd.results ≠ Results.success then
      pure cmd.results
    else
      full_clean_fresh cfg Method.copy
  else
    full_clean_fresh cfg method1

/-- Translation of `Fossil.incremental_clean`: validate and pull the
repo; on a non-good repo fall back to `full_clean` with the copy method
(demoted there to clobber); on a good repo revert, returning the revert
result unless it failed, in which case fall back to `full_clean` with
the copy method. -/
def incremental_clean (cfg : FossilCfg) : M Results := do
  let repo_status ← update_repo cfg
  if repo_status ≠ Results.success then
    full_clean cfg Method.copy (some repo_status)
  else do
    let cmd ← fossil cfg.workdir ["revert"]
    if cmd.results ≠ Results.failure then
      pure cmd.results
    else
      full_clean cfg Method.copy (some repo_status)

/-- Translation of `Fossil.fossil_checkout`: resolve the target label
(an explicit revision, else `tag:branch`, else `tip`) and issue the
checkout command, returning its result unchanged. -/
def fossil_checkout (cfg : FossilCfg) (branch revision : Option String) : M Results := do
  let version :=
    if pyTruthy revision then revision.getD ""
    else if pyTruthy branch then "tag:" ++ branch.getD ""
    else "tip"
  let cmd ← fossil cfg.workdir ["checkout", version]
  pure cmd.results

/-- Translation of `Fossil.fossil_status`: query the checkout state with
`json status` when the JSON API is available (a malformed payload raises
a Python error), else with `status --differ` and the two multiline regex
scans; either command's non-success result is returned before parsing. -/
def fossil_status (cfg : FossilCfg) : M Results := do
  let st ← getSt
  if st.fossil_json.getD 0 > 0 then do
    let cmd ← fossil cfg.workdir ["json", "status"]
    if cmd.results ≠ Results.success then
      pure cmd.results
    else
      match jsonCheckoutFields cmd.stdout with
      | none => mthrow Exn.pythonError
      | some (uuid, tags) => do
        setProp "got_revision" uuid
        setProp "got_tags" tags
        pure Results.success
  else do
    let cmd ← fossil cfg.workdir ["status", "--differ"]
    if cmd.results ≠ Results.success then
      pure cmd.results
    else do
      match searchCheckout cmd.stdout with
      | some rev => setProp "got_revision" (Json.str (String.mk rev))
      | none => pure ()
      match searchTags cmd.stdout with
      | some t =>
        setProp "got_tags"
          (Json.arr ((splitCommaSpace [] t).map (fun p => Json.str (String.mk p))))
      | none => pure ()
      pure Results.success

/-- Translation of `Fossil.run_vc`, the main entry point: version probe,
derivation of `repopath`, the incremental or full strategy, the checkout
step, and the status step.  Patch application is the framework's
`Source.patch` (an external collaborator) and issues none of the
commands modelled here. -/
def run_vc (cfg : FossilCfg) (branch revision : Option String) : M Results := do
  let res ← check_fossil_version
  if res ≠ Results.success then
    pure res
  else do
    modifySt (fun s => { s with repopath := rstripSlashes cfg.workdir ++ ".fossil" })
    let res ←
      match cfg.mode with
      | Mode.incremental => incremental_clean cfg
      | Mode.full m => full_clean cfg m none
    if res ≠ Results.success then
      pure res
    else do
      let res ← fossil_checkout cfg branch revision
      if res ≠ Results.success then
        pure res
      else
        fossil_status cfg

/-- Outcome of the whole build step as the surrounding framework reports
it. -/
inductive Outcome where
  | results (r : Results)
  | exceptionOut (msg : Option String)
deriving DecidableEq, Repr

/-- Initial state of a step execution; `repopath`, `fossil_version` and
`fossil_json` are unset (`None`) until `run_vc` assigns them, with `""`
standing for the unset `repopath`. -/
def initSt : St :=
  { trace := [], props := [], repopath := "", fossil_version := none, fossil_json := none }

/-- Run the step under an environment and map the Python exceptions to
step outcomes as buildbot does: `BuildStepFailed` to `FAILURE`,
`BuildStepCancelled` to `CANCELLED`, `WorkerSetupError` and other Python
errors to an exceptional outcome. -/
def runStep (cfg : FossilCfg) (branch revision : Option String) (env : Env) :
    Outcome × St :=
  match run_vc cfg branch revision env initSt with
  | (Except.ok r, s) => (Outcome.results r, s)
  | (Except.error (Exn.workerSetup m), s) => (Outcome.exceptionOut (some m), s)
  | (Except.error Exn.pythonError, s) => (Outcome.exceptionOut none, s)
  | (Except.error Exn.stepFailed, s) => (Outcome.results Results.failure, s)
  | (Except.error Exn.stepCancelled, s) => (Outcome.results Results.cancelled, s)

/-! Concrete scenery shared by the theorems below. -/

/-- POSIX path syntax for a worker, one instance of
`self.build.path_module`. -/
def posixPM : PathModule :=
  { join := fun a b => a ++ "/" ++ b,
    split := fun p =>
      let parts := p.splitOn "/"
      (String.intercalate "/" parts.dropLast, parts.getLastD "") }

/-- Configuration used by the concrete scenarios: the repository URL and
worker directory of the source's own test suite. -/
def cfgIncr : FossilCfg :=
  { repourl := "https://fossil-scm.example/home", mode := Mode.incremental,
    workdir := "wkdir", pathModule := posixPM }

/-- Version probe command as it appears in every trace. -/
def versionCmd : Cmd := Cmd.shell "." ["fossil", "version", "-verbose"]

/-- Version probe output with no JSON API advertisement, so the status
step takes the plain-text path. -/
def verOut215 : String := "This is fossil version 2.15 [d4041437b6] 2021-01-28 20:42:53 UTC\n"

/-- Pull command of the concrete incremental scenarios. -/
def pullCmd : Cmd :=
  Cmd.shell "." ["fossil", "pull", "https://fossil-scm.example/home", "-R", "wkdir.fossil"]

/-- Environment whose version probe command fails outright. -/
def c6envNotInstalled : Env :=
  { shellResp := fun _ _ _ => ⟨Results.failure, ""⟩, fileOk := fun _ _ => true }

/-- Environment whose version probe succeeds with unparseable output. -/
def c6envTeapot : Env :=
  { shellResp := fun _ _ _ => ⟨Results.success, "I am a teapot!"⟩, fileOk := fun _ _ => true }

/-- Behavior the specification prescribes for the checkout/update step
with a resolved label: issue the single checkout command with that label
and return its result classification unchanged (cancellation
propagating), with no retry.  Stated from the spec's words, for
comparison with `fossil_checkout`. -/
def specCheckoutStep (cfg : FossilCfg) (label : String) (env : Env) (s : St) :
    Except Exn Results × St :=
  let r := (env.shellResp s.trace cfg.workdir ["fossil", "checkout", label]).results
  let s' := { s with trace := s.trace ++ [Cmd.shell cfg.workdir ["fossil", "checkout", label]] }
  (if r = Results.cancelled then Except.error Exn.stepCancelled else Except.ok r, s')

/-- Environment for the concrete C5 scenarios: a successful version
probe returning the given output. -/
def c5env (out : String) : Env :=
  { shellResp := fun _ _ _ => ⟨Results.success, out⟩, fileOk := fun _ _ => true }

/-- Version probe output of the source's own test fixtures. -/
def FOSSIL_215 : String :=
  "This is fossil version 2.15 [d4041437b6] 2021-01-28 20:42:53 UTC\nCompiled on Jan 29 2021 16:37:52 using clang-12.0.0 (clang-1200.0.32.29) (64-bit)\nSchema version 2015-01-24\nJSON (API 20120713)\nSQLite 3.35.0 2021-01-27 19:15:06 9dc7fc9f04\n"

/-- Three-component version fixture. -/
def FOSSIL_212_1 : String :=
  "This is fossil version 2.12.1 [d4041437b6] 2021-01-28 20:42:53 UTC"

/-- Two-component version fixture with a JSON API line. -/
def FOSSIL_208 : String := "This is fossil version 2.8\nJSON (API 20120713)\n"

/-- Environment for the C9 witness: every command succeeds. -/
def c9env : Env :=
  { shellResp := fun _ _ _ => ⟨Results.success, ""⟩, fileOk := fun _ _ => true }

/-- Environment for the C2 witness: pull fails while the repo file
exists. -/
def c2env : Env :=
  { shellResp := fun _ _ args =>
      match args with
      | ["fossil", "version", "-verbose"] => ⟨Results.success, FOSSIL_208⟩
      | "fossil" :: "pull" :: _ => ⟨Results.failure, ""⟩
      | _ => ⟨Results.success, ""⟩,
    fileOk := fun _ _ => true }

/-- Environment for the C10 witness: pull reports the warnings
classification. -/
def c10env : Env :=
  { shellResp := fun _ _ args =>
      match args with
      | "fossil" :: "pull" :: _ => ⟨Results.warnings, ""⟩
      | _ => ⟨Results.success, ""⟩,
    fileOk := fun _ _ => true }

/-- State for the C10 witness, with `repopath` already derived. -/
def c10st : St := { initSt with repopath := "wkdir.fossil" }

/-- Full-mode clobber configuration for the C7 scenarios. -/
def cfgClobber : FossilCfg :=
  { repourl := "https://fossil-scm.example/home", mode := Mode.full Method.clobber,
    workdir := "wkdir", pathModule := posixPM }

/-- Clone command of the concrete scenarios. -/
def cloneCmd : Cmd :=
  Cmd.shell "." ["fossil", "clone", "https://fossil-scm.example/home", "wkdir.fossil"]

/-- Environment for the C7 scenarios: the clone command fails at the
transport level, everything else succeeds. -/
def c7env : Env :=
  { shellResp := fun _ _ args =>
      match args with
      | ["fossil", "version", "-verbose"] => ⟨Results.success, FOSSIL_208⟩
      | "fossil" :: "clone" :: _ => ⟨Results.failure, ""⟩
      | _ => ⟨Results.success, ""⟩,
    fileOk := fun _ _ => true }

/-- Environment for the C8 witness, answering the plain-text status
command with the spec's example output. -/
def c8env : Env :=
  { shellResp := fun _ _ _ =>
      ⟨Results.success, "checkout:   abc123 2021-02-07\ntags:   trunk, release\n"⟩,
    fileOk := fun _ _ => true }

/-- State for the C8 witness: capability level 0. -/
def c8st : St := { initSt with fossil_json := some 0 }

/-- Environment for the C4 witness: clean succeeds, revert fails. -/
def c4env : Env :=
  { shellResp := fun _ _ args =>
      match args with
      | ["fossil", "revert"] => ⟨Results.failure, ""⟩
      | _ => ⟨Results.success, ""⟩,
    fileOk := fun _ _ => true }

/-- Environment for the C1 witness: no repo file exists, the pull fails,
and the clobber fallback succeeds end to end. -/
def c1env : Env :=
  { shellResp := fun _ _ args =>
      match args with
      | ["fossil", "version", "-verbose"] => ⟨Results.success, verOut215⟩
      | "fossil" :: "pull" :: _ => ⟨Results.failure, ""⟩
      | ["fossil", "status", "--differ"] =>
        ⟨Results.success, "checkout:   9be9cee 2021-02-07\ntags:   trunk\n"⟩
      | _ => ⟨Results.success, ""⟩,
    fileOk := fun _ c =>
      match c with
      | Cmd.stat _ => false
      | _ => true }

/-- Result classification a trace command received from the environment,
reconstructed from the trace prefix that preceded it (file operations
have no shell classification). -/
def shellClass (env : Env) (pre : List Cmd) : Cmd → Option Results
  | Cmd.shell wd args => some (env.shellResp pre wd args).results
  | _ => none

/-- No command of the segment, issued after the given trace prefix,
received the cancelled classification. -/
def NoCancel (env : Env) : List Cmd → List Cmd → Prop
  | _, [] => True
  | pre, c :: l =>
    shellClass env pre c ≠ some Results.cancelled ∧ NoCancel env (pre ++ [c]) l

/-- The last command of the segment received the cancelled
classification, and no earlier one did. -/
def EndsCancelled (env : Env) : List Cmd → List Cmd → Prop
  | _, [] => False
  | pre, c :: l =>
    match l with
    | [] => shellClass env pre c = some Results.cancelled
    | _ :: _ =>
      shellClass env pre c ≠ some Results.cancelled ∧ EndsCancelled env (pre ++ [c]) l

/-- Cancellation discipline of a step computation: it only appends to
the trace; when it does not raise `BuildStepCancelled`, no appended
command received the cancelled classification; when it does, the
cancelled command is the last one appended. -/
def CancelSpec {α : Type} (m : M α) : Prop :=
  ∀ env s, ∃ l, (m env s).2.trace = s.trace ++ l ∧
    (((m env s).1 ≠ Except.error Exn.stepCancelled ∧ NoCancel env s.trace l) ∨
     ((m env s).1 = Except.error Exn.stepCancelled ∧ EndsCancelled env s.trace l))

/-- Environment for the C3 witness: the pull command is interrupted. -/
def c3env : Env :=
  { shellResp := fun _ _ args =>
      match args with
      | ["fossil", "version", "-verbose"] => ⟨Results.success, FOSSIL_208⟩
      | "fossil" :: "pull" :: _ => ⟨Results.cancelled, ""⟩
      | _ => ⟨Results.success, ""⟩,
    fileOk := fun _ _ => true }

theorem M_bind_eq {α β : Type} (m : M α) (k : α → M β) : m >>= k = Mbind m k := rfl

theorem M_pure_eq {α : Type} (a : α) : (pure a : M α) = Mpure a := rfl

/-- C6: the version probe has two distinct fatal setup failure kinds,
each aborting the whole run immediately as an exceptional outcome: a
failed probe command yields the tool-not-installed error, and probe
output not matching the version pattern yields the distinct
unrecognized-version error; in both cases no further command is issued. -/
theorem c6_version_probe_fatal_kinds (cfg : FossilCfg) (br rev : Option String) (env : Env) :
    ((env.shellResp [] "." ["fossil", "version", "-verbose"]).results = Results.failure →
      runStep cfg br rev env =
        (Outcome.exceptionOut (some "fossil is not installed on worker"),
         { initSt with trace := [versionCmd] }))
    ∧
    ((env.shellResp [] "." ["fossil", "version", "-verbose"]).results = Results.success →
      versionCapture (env.shellResp [] "." ["fossil", "version", "-verbose"]).stdout = none →
      runStep cfg br rev env =
        (Outcome.exceptionOut (some "unrecognized fossil version"),
         { initSt with trace := [versionCmd] }))
    ∧ "fossil is not installed on worker" ≠ "unrecognized fossil version" := by
  refine ⟨?_, ?_, by decide⟩
  · intro h
    simp [runStep, run_vc, check_fossil_version, M_bind_eq, M_pure_eq, Mbind, Mpure,
      fossil, mthrow, initSt, h, versionCmd]
  · intro h hcap
    simp [runStep, run_vc, check_fossil_version, M_bind_eq, M_pure_eq, Mbind, Mpure,
      fossil, mthrow, initSt, h, hcap, versionCmd]

/-- Witness for C6 at the two concrete environments. -/
theorem c6_witness :
    runStep cfgIncr none none c6envNotInstalled =
      (Outcome.exceptionOut (some "fossil is not installed on worker"),
       { initSt with trace := [versionCmd] }) ∧
    runStep cfgIncr none none c6envTeapot =
      (Outcome.exceptionOut (some "unrecognized fossil version"),
       { initSt with trace := [versionCmd] }) :=
  ⟨(c6_version_probe_fatal_kinds cfgIncr none none c6envNotInstalled).1 rfl,
   (c6_version_probe_fatal_kinds cfgIncr none none c6envTeapot).2.1 rfl rfl⟩

theorem pyTruthy_some (s : String) : pyTruthy (some s) = decide (s ≠ "") := by
  simp [pyTruthy]

/-- C9: the checkout/update step resolves its target label with the
precedence explicit revision, then `tag:` plus branch, then `tip`, and
behaves as the single-command no-retry step prescribed by the spec. -/
theorem c9_checkout_resolution_no_retry (cfg : FossilCfg) (br rev : Option String)
    (env : Env) (s : St) :
    (∀ rv, rev = some rv → rv ≠ "" →
      fossil_checkout cfg br rev env s = specCheckoutStep cfg rv env s) ∧
    (pyTruthy rev = false → ∀ b, br = some b → b ≠ "" →
      fossil_checkout cfg br rev env s = specCheckoutStep cfg ("tag:" ++ b) env s) ∧
    (pyTruthy rev = false → pyTruthy br = false →
      fossil_checkout cfg br rev env s = specCheckoutStep cfg "tip" env s) := by
  refine ⟨?_, ?_, ?_⟩
  · intro rv hrv hne
    subst hrv
    by_cases hc :
        (env.shellResp s.trace cfg.workdir ["fossil", "checkout", rv]).results =
          Results.cancelled <;>
      simp [fossil_checkout, specCheckoutStep, fossil, pyTruthy_some, hne, hc,
        M_bind_eq, Mbind, M_pure_eq, Mpure]
  · intro hrev b hb hne
    subst hb
    by_cases hc :
        (env.shellResp s.trace cfg.workdir ["fossil", "checkout", "tag:" ++ b]).results =
          Results.cancelled <;>
      simp [fossil_checkout, specCheckoutStep, fossil, pyTruthy_some, hne, hc, hrev,
        M_bind_eq, Mbind, M_pure_eq, Mpure]
  · intro hrev hbr
    by_cases hc :
        (env.shellResp s.trace cfg.workdir ["fossil", "checkout", "tip"]).results =
          Results.cancelled <;>
      simp [fossil_checkout, specCheckoutStep, fossil, hrev, hbr, hc,
        M_bind_eq, Mbind, M_pure_eq, Mpure]

/-! Lemmas about the greedy version-string parse, for C5. -/

theorem takeWhile_append_stop {p : Char → Bool} {a rest : List Char}
    (h : ∀ c ∈ a, p c = true) (h2 : ∀ c, rest.head? = some c → p c = false) :
    (a ++ rest).takeWhile p = a := by
  induction a with
  | nil =>
    cases rest with
    | nil => rfl
    | cons c t => simp [List.takeWhile_cons, h2 c rfl]
  | cons c t ih =>
    have hc : p c = true := h c (List.mem_cons_self c t)
    simp [List.takeWhile_cons, hc]
    exact ih (fun x hx => h x (List.mem_cons_of_mem c hx))

theorem takeDotGroups_stop (fuel : Nat) (cs : List Char)
    (h : ∀ c, cs.head? = some c → c ≠ '.') :
    takeDotGroups fuel cs = ([], cs) := by
  cases fuel with
  | zero => rfl
  | succ n =>
    cases cs with
    | nil => rfl
    | cons c t => simp [takeDotGroups, h c rfl]

theorem takeDotGroups_cons (fuel : Nat) (b rest : List Char)
    (hb : ∀ c ∈ b, isPyDigit c = true) (hbne : b ≠ [])
    (hstop : ∀ c, rest.head? = some c → isPyDigit c = false) :
    takeDotGroups (fuel + 1) ('.' :: (b ++ rest)) =
      ('.' :: (b ++ (takeDotGroups fuel rest).1), (takeDotGroups fuel rest).2) := by
  obtain ⟨c0, t0, rfl⟩ : ∃ c0 t0, b = c0 :: t0 := by
    cases b with
    | nil => exact absurd rfl hbne
    | cons c0 t0 => exact ⟨c0, t0, rfl⟩
  have htw' : List.takeWhile isPyDigit (c0 :: (t0 ++ rest)) = c0 :: t0 := by
    have := takeWhile_append_stop hb hstop
    simp only [List.cons_append] at this
    exact this
  have hdrop' : List.drop (c0 :: t0).length (c0 :: (t0 ++ rest)) = rest := by
    have := List.drop_left (c0 :: t0) rest
    simp only [List.cons_append] at this
    exact this
  simp only [takeDotGroups, List.cons_append, htw']
  simp [hdrop']

theorem takeDotGroups_one_group (fuel : Nat) (b rest : List Char)
    (hb : ∀ c ∈ b, isPyDigit c = true) (hbne : b ≠ [])
    (hstop : ∀ c, rest.head? = some c → isPyDigit c = false ∧ c ≠ '.')
    (hf : fuel ≠ 0) :
    takeDotGroups fuel ('.' :: (b ++ rest)) = ('.' :: b, rest) := by
  obtain ⟨f, rfl⟩ : ∃ f, fuel = f + 1 := ⟨fuel - 1, by omega⟩
  rw [takeDotGroups_cons f b rest hb hbne (fun c h => (hstop c h).1)]
  rw [takeDotGroups_stop f rest (fun c h => (hstop c h).2)]
  simp

theorem takeDotGroups_two_groups (fuel : Nat) (b c rest : List Char)
    (hb : ∀ x ∈ b, isPyDigit x = true) (hc : ∀ x ∈ c, isPyDigit x = true)
    (hbne : b ≠ []) (hcne : c ≠ [])
    (hstop : ∀ x, rest.head? = some x → isPyDigit x = false ∧ x ≠ '.')
    (hf : 2 ≤ fuel) :
    takeDotGroups fuel ('.' :: (b ++ '.' :: (c ++ rest))) =
      ('.' :: (b ++ '.' :: c), rest) := by
  obtain ⟨f, rfl⟩ : ∃ f, fuel = f + 1 := ⟨fuel - 1, by omega⟩
  rw [takeDotGroups_cons f b ('.' :: (c ++ rest)) hb hbne
    (fun x h => by simp at h; subst h; simp [isPyDigit])]
  rw [takeDotGroups_one_group f c rest hc hcne hstop (by omega)]

/-- A digit is never a dot. -/
theorem isPyDigit_ne_dot {c : Char} (h : isPyDigit c = true) : c ≠ '.' := by
  intro hc
  subst hc
  simp [isPyDigit] at h

theorem versionCapture_append (a dtail : List Char)
    (ha : ∀ c ∈ a, isPyDigit c = true) (hane : a ≠ [])
    (hd : dtail.head? = some '.') :
    versionCapture (String.mk ("This is fossil version ".data ++ (a ++ dtail))) =
      (if (takeDotGroups dtail.length dtail).1.isEmpty then none
       else some (a ++ (takeDotGroups dtail.length dtail).1)) := by
  have htw : (a ++ dtail).takeWhile isPyDigit = a :=
    takeWhile_append_stop ha (by
      intro c h
      rw [hd] at h
      cases h
      simp [isPyDigit])
  obtain ⟨a0, t0, rfl⟩ : ∃ a0 t0, a = a0 :: t0 := by
    cases a with
    | nil => exact absurd rfl hane
    | cons a0 t0 => exact ⟨a0, t0, rfl⟩
  simp only [versionCapture, String.data]
  rw [List.take_left, List.drop_left, htw, List.drop_left]
  simp

theorem splitDot_append_no_dot {a : List Char} (acc cs : List Char)
    (h : ∀ c ∈ a, c ≠ '.') :
    splitDot acc (a ++ cs) = splitDot (a.reverse ++ acc) cs := by
  induction a generalizing acc with
  | nil => simp
  | cons c t ih =>
    have hc : c ≠ '.' := h c (List.mem_cons_self c t)
    simp [splitDot, hc]
    rw [ih (c :: acc) (fun x hx => h x (List.mem_cons_of_mem c hx))]

theorem splitDot_two {a b : List Char} (ha : ∀ c ∈ a, c ≠ '.') (hb : ∀ c ∈ b, c ≠ '.') :
    splitDot [] (a ++ '.' :: b) = [a, b] := by
  rw [splitDot_append_no_dot [] ('.' :: b) ha]
  simp [splitDot]
  have := splitDot_append_no_dot (a := b) [] [] hb
  simp at this
  simp [this, splitDot]

theorem splitDot_three {a b c : List Char} (ha : ∀ x ∈ a, x ≠ '.')
    (hb : ∀ x ∈ b, x ≠ '.') (hc : ∀ x ∈ c, x ≠ '.') :
    splitDot [] (a ++ '.' :: (b ++ '.' :: c)) = [a, b, c] := by
  rw [splitDot_append_no_dot [] ('.' :: (b ++ '.' :: c)) ha]
  simp [splitDot]
  rw [splitDot_append_no_dot [] ('.' :: c) hb]
  simp [splitDot]
  have := splitDot_append_no_dot (a := c) [] [] hc
  simp at this
  simp [this, splitDot]

set_option maxRecDepth 10000 in
/-- C5: the version probe parses a dotted numeric version of 2 or 3
components into the integer encoding major*10000 + minor*100 + patch,
with the patch contributing 0 when absent; in particular the probe
stores 21500 for "2.15", 21201 for "2.12.1" and 20800 for "2.8". -/
theorem c5_version_encoding :
    (∀ a b rest : List Char, (∀ c ∈ a, isPyDigit c = true) → (∀ c ∈ b, isPyDigit c = true) →
      a ≠ [] → b ≠ [] →
      (∀ c, rest.head? = some c → isPyDigit c = false ∧ c ≠ '.') →
      versionCapture (String.mk ("This is fossil version ".data ++ (a ++ '.' :: (b ++ rest)))) =
          some (a ++ '.' :: b) ∧
        fossilVersionNumber (a ++ '.' :: b) = strToNat a * 10000 + strToNat b * 100) ∧
    (∀ a b c rest : List Char, (∀ x ∈ a, isPyDigit x = true) → (∀ x ∈ b, isPyDigit x = true) →
      (∀ x ∈ c, isPyDigit x = true) → a ≠ [] → b ≠ [] → c ≠ [] →
      (∀ x, rest.head? = some x → isPyDigit x = false ∧ x ≠ '.') →
      versionCapture
          (String.mk ("This is fossil version ".data ++ (a ++ '.' :: (b ++ '.' :: (c ++ rest))))) =
          some (a ++ '.' :: (b ++ '.' :: c)) ∧
        fossilVersionNumber (a ++ '.' :: (b ++ '.' :: c)) =
          strToNat a * 10000 + strToNat b * 100 + strToNat c) ∧
    (check_fossil_version (c5env FOSSIL_215) initSt).2.fossil_version = some 21500 ∧
    (check_fossil_version (c5env FOSSIL_212_1) initSt).2.fossil_version = some 21201 ∧
    (check_fossil_version (c5env FOSSIL_208) initSt).2.fossil_version = some 20800 := by
  refine ⟨?_, ?_, rfl, rfl, rfl⟩
  · intro a b rest ha hb hane hbne hstop
    constructor
    · rw [versionCapture_append a ('.' :: (b ++ rest)) ha hane rfl]
      rw [takeDotGroups_one_group _ b rest hb hbne hstop (by simp)]
      simp
    · have ha' : ∀ c ∈ a, c ≠ '.' := fun c hc => isPyDigit_ne_dot (ha c hc)
      have hb' : ∀ c ∈ b, c ≠ '.' := fun c hc => isPyDigit_ne_dot (hb c hc)
      simp [fossilVersionNumber, splitDot_two ha' hb']
  · intro a b c rest ha hb hc hane hbne hcne hstop
    constructor
    · rw [versionCapture_append a ('.' :: (b ++ '.' :: (c ++ rest))) ha hane rfl]
      rw [takeDotGroups_two_groups _ b c rest hb hc hbne hcne hstop (by simp; omega)]
      simp
    · have ha' : ∀ x ∈ a, x ≠ '.' := fun x hx => isPyDigit_ne_dot (ha x hx)
      have hb' : ∀ x ∈ b, x ≠ '.' := fun x hx => isPyDigit_ne_dot (hb x hx)
      have hc' : ∀ x ∈ c, x ≠ '.' := fun x hx => isPyDigit_ne_dot (hc x hx)
      simp [fossilVersionNumber, splitDot_three ha' hb' hc', Nat.add_assoc]

/-- Witness for C5 at the concrete two-component version "2.8". -/
theorem c5_witness :
    versionCapture (String.mk ("This is fossil version ".data ++ (['2'] ++ '.' :: (['8'] ++ [])))) =
        some (['2'] ++ '.' :: ['8']) ∧
      fossilVersionNumber (['2'] ++ '.' :: ['8']) = strToNat ['2'] * 10000 + strToNat ['8'] * 100 :=
  c5_version_encoding.1 ['2'] ['8'] [] (by decide) (by decide) (by decide) (by decide)
    (fun c h => nomatch h)

/-- C2: in incremental mode, when the pull command fails and the repo
file exists, the run stops with the failure outcome after exactly the
version, pull and existence-check commands; no clone, open, checkout or
status command is issued. -/
theorem c2_incremental_bad_repo_stops (br rev : Option String) (env : Env)
    (out : String) (ver : List Char)
    (h1 : env.shellResp [] "." ["fossil", "version", "-verbose"] = ⟨Results.success, out⟩)
    (hcap : versionCapture out = some ver)
    (h2 : (env.shellResp [Cmd.shell "." ["fossil", "version", "-verbose"]] "."
        ["fossil", "pull", "https://fossil-scm.example/home", "-R", "wkdir.fossil"]).results =
      Results.failure)
    (h3 : env.fileOk
        [Cmd.shell "." ["fossil", "version", "-verbose"],
         Cmd.shell "." ["fossil", "pull", "https://fossil-scm.example/home", "-R", "wkdir.fossil"]]
        (Cmd.stat "wkdir.fossil") = true) :
    runStep cfgIncr br rev env =
      (Outcome.results Results.failure,
       { trace := [versionCmd, pullCmd, Cmd.stat "wkdir.fossil"], props := [],
         repopath := "wkdir.fossil", fossil_version := some (fossilVersionNumber ver),
         fossil_json := some ((findJsonApi out).getD 0) }) := by
  have hrp : rstripSlashes "wkdir" ++ ".fossil" = "wkdir.fossil" := rfl
  simp [runStep, run_vc, check_fossil_version, incremental_clean, update_repo,
    fossil, pathExists, mthrow, getSt, modifySt, M_bind_eq, Mbind, M_pure_eq, Mpure,
    initSt, cfgIncr, hrp, h1, hcap, h2, h3, versionCmd, pullCmd]

/-- C10: a pull result that is neither success nor failure (nor the
cancelled classification, which raises) is returned by the repo
validation directly, with no existence check issued; and both callers
treat any non-success validation result as repo-not-good, continuing
directly with the clone of the demoted clobber path (no repo file
deletion, no re-validation). -/
theorem c10_nonfailure_pull_skips_existence_check (cfg : FossilCfg) (env : Env) (s : St) :
    ((env.shellResp s.trace "." ["fossil", "pull", cfg.repourl, "-R", s.repopath]).results ≠
        Results.success →
      (env.shellResp s.trace "." ["fossil", "pull", cfg.repourl, "-R", s.repopath]).results ≠
        Results.failure →
      (env.shellResp s.trace "." ["fossil", "pull", cfg.repourl, "-R", s.repopath]).results ≠
        Results.cancelled →
      update_repo cfg env s =
        (Except.ok
          (env.shellResp s.trace "." ["fossil", "pull", cfg.repourl, "-R", s.repopath]).results,
         { s with trace :=
            s.trace ++ [Cmd.shell "." ["fossil", "pull", cfg.repourl, "-R", s.repopath]] })) ∧
    (∀ rs : Results, rs ≠ Results.success → ∀ m : Method, m ≠ Method.clobber →
      full_clean cfg m (some rs) env s =
        Mbind (fossil "." ["clone", cfg.repourl, s.repopath])
          (fun cmd =>
            if cmd.results ≠ Results.success then Mpure cmd.results
            else full_clean_fresh cfg Method.copy) env s) ∧
    ((env.shellResp s.trace "." ["fossil", "pull", cfg.repourl, "-R", s.repopath]).results ≠
        Results.success →
      (env.shellResp s.trace "." ["fossil", "pull", cfg.repourl, "-R", s.repopath]).results ≠
        Results.failure →
      (env.shellResp s.trace "." ["fossil", "pull", cfg.repourl, "-R", s.repopath]).results ≠
        Results.cancelled →
      incremental_clean cfg env s =
        Mbind (fossil "." ["clone", cfg.repourl, s.repopath])
          (fun cmd =>
            if cmd.results ≠ Results.success then Mpure cmd.results
            else full_clean_fresh cfg Method.copy) env
          { s with trace :=
              s.trace ++ [Cmd.shell "." ["fossil", "pull", cfg.repourl, "-R", s.repopath]] }) := by
  have hrepo :
      ∀ h1 : (env.shellResp s.trace "." ["fossil", "pull", cfg.repourl, "-R", s.repopath]).results ≠
        Results.failure,
      ∀ h2 : (env.shellResp s.trace "." ["fossil", "pull", cfg.repourl, "-R", s.repopath]).results ≠
        Results.cancelled,
      update_repo cfg env s =
        (Except.ok
          (env.shellResp s.trace "." ["fossil", "pull", cfg.repourl, "-R", s.repopath]).results,
         { s with trace :=
            s.trace ++ [Cmd.shell "." ["fossil", "pull", cfg.repourl, "-R", s.repopath]] }) := by
    intro h1 h2
    simp [update_repo, fossil, getSt, M_bind_eq, Mbind, M_pure_eq, Mpure, h1, h2]
  have hfull :
      ∀ s' : St, ∀ rs : Results, rs ≠ Results.success → ∀ m : Method, m ≠ Method.clobber →
      full_clean cfg m (some rs) env s' =
        Mbind (fossil "." ["clone", cfg.repourl, s'.repopath])
          (fun cmd =>
            if cmd.results ≠ Results.success then Mpure cmd.results
            else full_clean_fresh cfg Method.copy) env s' := by
    intro s' rs hrs m hm
    simp [full_clean, getSt, M_bind_eq, Mbind, M_pure_eq, Mpure, hm, hrs]
  refine ⟨fun _ h1 h2 => hrepo h1 h2, hfull s, ?_⟩
  intro h0 h1 h2
  simp [incremental_clean, M_bind_eq, Mbind, hrepo h1 h2, h0,
    hfull _ _ h0 Method.copy (by decide)]

/-- Witness for C10: a warnings pull is returned without the existence
check. -/
theorem c10_witness :
    update_repo cfgIncr c10env c10st =
      (Except.ok
        (c10env.shellResp c10st.trace "."
          ["fossil", "pull", cfgIncr.repourl, "-R", c10st.repopath]).results,
       { c10st with trace :=
          c10st.trace ++
            [Cmd.shell "." ["fossil", "pull", cfgIncr.repourl, "-R", c10st.repopath]] }) :=
  (c10_nonfailure_pull_skips_existence_check cfgIncr c10env c10st).1
    (by decide) (by decide) (by decide)

set_option maxRecDepth 10000 in
/-- Counterexample to C7: in the clobber method, a transport-level
failure of the clone command is not routed through the capability
probe's failure path; the run ends as an ordinary failure immediately
after the clone, with no diagnostic command issued and no exceptional
outcome. -/
theorem c7_counterexample :
    runStep cfgClobber none none c7env =
      (Outcome.results Results.failure,
       { trace := [versionCmd, Cmd.rmfile "wkdir.fossil", cloneCmd], props := [],
         repopath := "wkdir.fossil",
         fossil_version := some (fossilVersionNumber "2.8".data),
         fossil_json := some ((findJsonApi FOSSIL_208).getD 0) }) ∧
    (∀ m, (runStep cfgClobber none none c7env).1 ≠ Outcome.exceptionOut m) := by
  constructor
  · rfl
  · intro m h
    rw [show (runStep cfgClobber none none c7env).1 = Outcome.results Results.failure from rfl]
      at h
    exact Outcome.noConfusion h

/-- C7 amended: in the clobber method, a non-success, non-cancelled
clone result is reported directly as the run's result, right after the
repo file deletion and the clone; no capability probe failure path nor
any other command follows the failed clone. -/
theorem c7_clobber_clone_failure_direct (br rev : Option String) (env : Env)
    (out : String) (ver : List Char) (r : Results)
    (h1 : env.shellResp [] "." ["fossil", "version", "-verbose"] = ⟨Results.success, out⟩)
    (hcap : versionCapture out = some ver)
    (h2 : (env.shellResp [Cmd.shell "." ["fossil", "version", "-verbose"],
        Cmd.rmfile "wkdir.fossil"] "."
        ["fossil", "clone", "https://fossil-scm.example/home", "wkdir.fossil"]).results = r)
    (hr1 : r ≠ Results.success) (hr2 : r ≠ Results.cancelled) :
    runStep cfgClobber br rev env =
      (Outcome.results r,
       { trace := [versionCmd, Cmd.rmfile "wkdir.fossil", cloneCmd], props := [],
         repopath := "wkdir.fossil", fossil_version := some (fossilVersionNumber ver),
         fossil_json := some ((findJsonApi out).getD 0) }) := by
  have hrp : rstripSlashes "wkdir" ++ ".fossil" = "wkdir.fossil" := rfl
  simp [runStep, run_vc, check_fossil_version, full_clean, fossil, runFileOp, runRmFile,
    getSt, modifySt, M_bind_eq, Mbind, M_pure_eq, Mpure, mthrow, initSt, cfgClobber, hrp,
    h1, hcap, h2, hr1, hr2, versionCmd, cloneCmd]

/-- Witness for the amended C7 at the concrete environment. -/
theorem c7_witness :
    runStep cfgClobber (some "trunk") none c7env =
      (Outcome.results Results.failure,
       { trace := [versionCmd, Cmd.rmfile "wkdir.fossil", cloneCmd], props := [],
         repopath := "wkdir.fossil",
         fossil_version := some (fossilVersionNumber "2.8".data),
         fossil_json := some ((findJsonApi FOSSIL_208).getD 0) }) :=
  c7_clobber_clone_failure_direct (some "trunk") none c7env FOSSIL_208 "2.8".data
    Results.failure rfl rfl rfl (by decide) (by decide)

/-- C8: at capability level 0 the status step issues the plain-text
differencing status command; on success it sets got_revision from the
line-anchored hexadecimal checkout pattern and got_tags from the
comma-space split of the line-anchored tags pattern, leaving either
property unset when its pattern is absent while still returning
success; a non-success command result is returned before any parsing. -/
theorem c8_plaintext_status_extraction (cfg : FossilCfg) (env : Env) (s : St)
    (hjson : s.fossil_json.getD 0 = 0) :
    ((env.shellResp s.trace cfg.workdir ["fossil", "status", "--differ"]).results ≠
        Results.success →
      (env.shellResp s.trace cfg.workdir ["fossil", "status", "--differ"]).results ≠
        Results.cancelled →
      fossil_status cfg env s =
        (Except.ok (env.shellResp s.trace cfg.workdir ["fossil", "status", "--differ"]).results,
         { s with trace := s.trace ++ [Cmd.shell cfg.workdir ["fossil", "status", "--differ"]] })) ∧
    ((env.shellResp s.trace cfg.workdir ["fossil", "status", "--differ"]).results =
        Results.success →
      fossil_status cfg env s =
        (Except.ok Results.success,
         { s with
            trace := s.trace ++ [Cmd.shell cfg.workdir ["fossil", "status", "--differ"]],
            props := s.props ++
              ((searchCheckout
                  (env.shellResp s.trace cfg.workdir
                    ["fossil", "status", "--differ"]).stdout).toList.map
                (fun rev => ("got_revision", Json.str (String.mk rev)))) ++
              ((searchTags
                  (env.shellResp s.trace cfg.workdir
                    ["fossil", "status", "--differ"]).stdout).toList.map
                (fun t => ("got_tags",
                  Json.arr ((splitCommaSpace [] t).map (fun p => Json.str (String.mk p)))))) })) := by
  constructor
  · intro h1 h2
    simp [fossil_status, fossil, getSt, setProp, modifySt, M_bind_eq, Mbind, M_pure_eq,
      Mpure, hjson, h1, h2]
  · intro h
    cases hc : searchCheckout
        (env.shellResp s.trace cfg.workdir ["fossil", "status", "--differ"]).stdout <;>
      cases ht : searchTags
          (env.shellResp s.trace cfg.workdir ["fossil", "status", "--differ"]).stdout <;>
        simp [fossil_status, fossil, getSt, setProp, modifySt, M_bind_eq, Mbind, M_pure_eq,
          Mpure, hjson, h, hc, ht]

set_option maxRecDepth 10000 in
/-- Witness for C8: the example output yields got_revision "abc123" and
got_tags trunk and release. -/
theorem c8_witness :
    fossil_status cfgIncr c8env c8st =
      (Except.ok Results.success,
       { c8st with
          trace := [Cmd.shell "wkdir" ["fossil", "status", "--differ"]],
          props := [("got_revision", Json.str "abc123"),
            ("got_tags", Json.arr [Json.str "trunk", Json.str "release"])] }) :=
  (c8_plaintext_status_extraction cfgIncr c8env c8st rfl).2 rfl

/-- C4: under the fresh method the engine runs the clean command and,
only if it succeeds, a revert; a failed clean or revert falls back to
the copy phase (which deletes the workdir and reopens from the clone)
and never re-attempts fresh; when neither command fails, the last
command's own result is the phase's result, with no further commands
and nothing deleted. -/
theorem c4_fresh_clean_revert_fallback (cfg : FossilCfg) (env : Env) (s : St) :
    ((env.shellResp s.trace cfg.workdir ["fossil", "clean", "--verily"]).results =
        Results.failure →
      full_clean_fresh cfg Method.fresh env s =
        full_clean_copy cfg Method.copy env
          { s with trace := s.trace ++ [Cmd.shell cfg.workdir ["fossil", "clean", "--verily"]] }) ∧
    ((env.shellResp s.trace cfg.workdir ["fossil", "clean", "--verily"]).results =
        Results.success →
      (env.shellResp (s.trace ++ [Cmd.shell cfg.workdir ["fossil", "clean", "--verily"]])
          cfg.workdir ["fossil", "revert"]).results = Results.failure →
      full_clean_fresh cfg Method.fresh env s =
        full_clean_copy cfg Method.copy env
          { s with trace := s.trace ++ [Cmd.shell cfg.workdir ["fossil", "clean", "--verily"],
              Cmd.shell cfg.workdir ["fossil", "revert"]] }) ∧
    ((env.shellResp s.trace cfg.workdir ["fossil", "clean", "--verily"]).results =
        Results.success →
      (env.shellResp (s.trace ++ [Cmd.shell cfg.workdir ["fossil", "clean", "--verily"]])
          cfg.workdir ["fossil", "revert"]).results ≠ Results.failure →
      (env.shellResp (s.trace ++ [Cmd.shell cfg.workdir ["fossil", "clean", "--verily"]])
          cfg.workdir ["fossil", "revert"]).results ≠ Results.cancelled →
      full_clean_fresh cfg Method.fresh env s =
        (Except.ok
          (env.shellResp (s.trace ++ [Cmd.shell cfg.workdir ["fossil", "clean", "--verily"]])
            cfg.workdir ["fossil", "revert"]).results,
         { s with trace := s.trace ++ [Cmd.shell cfg.workdir ["fossil", "clean", "--verily"],
             Cmd.shell cfg.workdir ["fossil", "revert"]] })) ∧
    ((env.shellResp s.trace cfg.workdir ["fossil", "clean", "--verily"]).results ≠
        Results.success →
      (env.shellResp s.trace cfg.workdir ["fossil", "clean", "--verily"]).results ≠
        Results.failure →
      (env.shellResp s.trace cfg.workdir ["fossil", "clean", "--verily"]).results ≠
        Results.cancelled →
      full_clean_fresh cfg Method.fresh env s =
        (Except.ok (env.shellResp s.trace cfg.workdir ["fossil", "clean", "--verily"]).results,
         { s with trace :=
            s.trace ++ [Cmd.shell cfg.workdir ["fossil", "clean", "--verily"]] })) := by
  refine ⟨?_, ?_, ?_, ?_⟩
  · intro hc
    simp [full_clean_fresh, fossil, M_bind_eq, Mbind, M_pure_eq, Mpure, hc]
  · intro hc hr
    simp [full_clean_fresh, fossil, M_bind_eq, Mbind, M_pure_eq, Mpure, hc, hr]
  · intro hc hr1 hr2
    simp [full_clean_fresh, fossil, M_bind_eq, Mbind, M_pure_eq, Mpure, hc, hr1, hr2]
  · intro h1 h2 h3
    simp [full_clean_fresh, fossil, M_bind_eq, Mbind, M_pure_eq, Mpure, h1, h2, h3]

/-- Witness for C4: clean succeeds but revert fails, so the fresh phase
becomes the copy phase after the two commands. -/
theorem c4_witness :
    full_clean_fresh cfgIncr Method.fresh c4env initSt =
      full_clean_copy cfgIncr Method.copy c4env
        { initSt with trace := [Cmd.shell "wkdir" ["fossil", "clean", "--verily"],
            Cmd.shell "wkdir" ["fossil", "revert"]] } :=
  (c4_fresh_clean_revert_fallback cfgIncr c4env initSt).2.1 rfl rfl

set_option maxHeartbeats 1000000 in
/-- C1: in incremental mode, when the pull fails and the existence check
confirms the repo file absent, the engine falls back to the full
strategy with the clobber method without a second validation pull: it
clones repourl into repopath and, on clone success, continues as the
copy method (workdir deletion, open, then checkout and status), so the
fossil commands after the failed validation are exactly clone, open,
checkout and status, and on success the properties come from the status
output. -/
theorem c1_incremental_missing_repo_clobber_fallback (env : Env)
    (out sout : String) (ver : List Char)
    (h1 : env.shellResp [] "." ["fossil", "version", "-verbose"] = ⟨Results.success, out⟩)
    (hcap : versionCapture out = some ver)
    (hj : findJsonApi out = none)
    (hge : 21200 ≤ fossilVersionNumber ver)
    (h2 : (env.shellResp [versionCmd] "."
        ["fossil", "pull", "https://fossil-scm.example/home", "-R", "wkdir.fossil"]).results =
      Results.failure)
    (h3 : env.fileOk [versionCmd, pullCmd] (Cmd.stat "wkdir.fossil") = false)
    (h4 : (env.shellResp [versionCmd, pullCmd, Cmd.stat "wkdir.fossil"] "."
        ["fossil", "clone", "https://fossil-scm.example/home", "wkdir.fossil"]).results =
      Results.success)
    (h5 : env.fileOk [versionCmd, pullCmd, Cmd.stat "wkdir.fossil", cloneCmd]
        (Cmd.rmdir "wkdir") = true)
    (h6 : (env.shellResp
        [versionCmd, pullCmd, Cmd.stat "wkdir.fossil", cloneCmd, Cmd.rmdir "wkdir"] "."
        ["fossil", "open", "wkdir.fossil", "--workdir", "wkdir", "--empty"]).results =
      Results.success)
    (h7 : (env.shellResp
        [versionCmd, pullCmd, Cmd.stat "wkdir.fossil", cloneCmd, Cmd.rmdir "wkdir",
         Cmd.shell "." ["fossil", "open", "wkdir.fossil", "--workdir", "wkdir", "--empty"]]
        "wkdir" ["fossil", "checkout", "tip"]).results = Results.success)
    (h8 : env.shellResp
        [versionCmd, pullCmd, Cmd.stat "wkdir.fossil", cloneCmd, Cmd.rmdir "wkdir",
         Cmd.shell "." ["fossil", "open", "wkdir.fossil", "--workdir", "wkdir", "--empty"],
         Cmd.shell "wkdir" ["fossil", "checkout", "tip"]]
        "wkdir" ["fossil", "status", "--differ"] = ⟨Results.success, sout⟩) :
    runStep cfgIncr none none env =
      (Outcome.results Results.success,
       { trace := [versionCmd, pullCmd, Cmd.stat "wkdir.fossil", cloneCmd, Cmd.rmdir "wkdir",
           Cmd.shell "." ["fossil", "open", "wkdir.fossil", "--workdir", "wkdir", "--empty"],
           Cmd.shell "wkdir" ["fossil", "checkout", "tip"],
           Cmd.shell "wkdir" ["fossil", "status", "--differ"]],
         props :=
           ((searchCheckout sout).toList.map
             (fun rev => ("got_revision", Json.str (String.mk rev)))) ++
           ((searchTags sout).toList.map
             (fun t => ("got_tags",
               Json.arr ((splitCommaSpace [] t).map (fun p => Json.str (String.mk p)))))),
         repopath := "wkdir.fossil", fossil_version := some (fossilVersionNumber ver),
         fossil_json := some 0 }) := by
  have hrp : rstripSlashes "wkdir" ++ ".fossil" = "wkdir.fossil" := rfl
  simp only [versionCmd, pullCmd, cloneCmd] at h2 h3 h4 h5 h6 h7 h8
  cases hc : searchCheckout sout <;> cases ht : searchTags sout <;>
    simp [runStep, run_vc, check_fossil_version, incremental_clean, update_repo, full_clean,
      full_clean_fresh, full_clean_copy, fossil_open, fossil_checkout, fossil_status,
      fossil, pathExists, runFileOp, runRmdir, runRmFile, getSt, modifySt, setProp, mthrow,
      M_bind_eq, Mbind, M_pure_eq, Mpure, initSt, cfgIncr, hrp, HAS_OPEN_WORKDIR, pyTruthy,
      h1, hcap, hj, hge, h2, h3, h4, h5, h6, h7, h8, hc, ht, versionCmd, pullCmd, cloneCmd]

set_option maxRecDepth 10000 in
/-- Witness for C1 at the concrete environment. -/
theorem c1_witness :
    runStep cfgIncr none none c1env =
      (Outcome.results Results.success,
       { trace := [versionCmd, pullCmd, Cmd.stat "wkdir.fossil", cloneCmd, Cmd.rmdir "wkdir",
           Cmd.shell "." ["fossil", "open", "wkdir.fossil", "--workdir", "wkdir", "--empty"],
           Cmd.shell "wkdir" ["fossil", "checkout", "tip"],
           Cmd.shell "wkdir" ["fossil", "status", "--differ"]],
         props :=
           ((searchCheckout "checkout:   9be9cee 2021-02-07\ntags:   trunk\n").toList.map
             (fun rev => ("got_revision", Json.str (String.mk rev)))) ++
           ((searchTags "checkout:   9be9cee 2021-02-07\ntags:   trunk\n").toList.map
             (fun t => ("got_tags",
               Json.arr ((splitCommaSpace [] t).map (fun p => Json.str (String.mk p)))))),
         repopath := "wkdir.fossil",
         fossil_version := some (fossilVersionNumber "2.15".data),
         fossil_json := some 0 }) :=
  c1_incremental_missing_repo_clobber_fallback c1env verOut215
    "checkout:   9be9cee 2021-02-07\ntags:   trunk\n" "2.15".data
    rfl rfl rfl (by decide) rfl rfl rfl rfl rfl rfl rfl

/-! Cancellation discipline, for C3: a command whose result
classification is cancelled makes the run raise `BuildStepCancelled` at
once, so it is the last command of the trace and the run outcome is
cancelled. -/

theorem noCancel_append {env : Env} : ∀ {t l1 l2 : List Cmd},
    NoCancel env t l1 → NoCancel env (t ++ l1) l2 → NoCancel env t (l1 ++ l2) := by
  intro t l1
  induction l1 generalizing t with
  | nil =>
    intro l2 _ h2
    simpa using h2
  | cons c l ih =>
    intro l2 h1 h2
    obtain ⟨hc, hrest⟩ := h1
    refine ⟨hc, ih hrest ?_⟩
    have : t ++ c :: l = t ++ [c] ++ l := by simp
    rw [this] at h2
    exact h2

theorem endsCancelled_append {env : Env} : ∀ {t l1 l2 : List Cmd},
    NoCancel env t l1 → EndsCancelled env (t ++ l1) l2 → EndsCancelled env t (l1 ++ l2) := by
  intro t l1
  induction l1 generalizing t with
  | nil =>
    intro l2 _ h2
    simpa using h2
  | cons c l ih =>
    intro l2 h1 h2
    obtain ⟨hc, hrest⟩ := h1
    have h2' : EndsCancelled env (t ++ [c] ++ l) l2 := by
      have : t ++ c :: l = t ++ [c] ++ l := by simp
      rw [this] at h2
      exact h2
    have hih := ih hrest h2'
    cases hl : l ++ l2 with
    | nil =>
      obtain ⟨hl1, hl2⟩ := List.append_eq_nil.mp hl
      subst hl1
      subst hl2
      exact absurd h2 (by simp [EndsCancelled])
    | cons d m =>
      show EndsCancelled env t (c :: (l ++ l2))
      rw [hl]
      rw [hl] at hih
      exact ⟨hc, hih⟩

theorem cancelSpec_pure {α : Type} (a : α) : CancelSpec (pure a : M α) := by
  intro env s
  exact ⟨[], by simp [Mpure, M_pure_eq, NoCancel], Or.inl ⟨by simp [Mpure, M_pure_eq], trivial⟩⟩

theorem cancelSpec_mthrow {α : Type} (e : Exn) (he : e ≠ Exn.stepCancelled) :
    CancelSpec (mthrow e : M α) := by
  intro env s
  exact ⟨[], by simp [mthrow], Or.inl ⟨by simp [mthrow, he], trivial⟩⟩

theorem cancelSpec_getSt : CancelSpec getSt := by
  intro env s
  exact ⟨[], by simp [getSt], Or.inl ⟨by simp [getSt], trivial⟩⟩

theorem cancelSpec_modifySt (f : St → St) (hf : ∀ s, (f s).trace = s.trace) :
    CancelSpec (modifySt f) := by
  intro env s
  exact ⟨[], by simp [modifySt, hf], Or.inl ⟨by simp [modifySt], trivial⟩⟩

theorem cancelSpec_setProp (n : String) (v : Json) : CancelSpec (setProp n v) :=
  cancelSpec_modifySt _ (fun _ => rfl)

theorem cancelSpec_fossil (wd : String) (args : List String) : CancelSpec (fossil wd args) := by
  intro env s
  by_cases hc : (env.shellResp s.trace wd ("fossil" :: args)).results = Results.cancelled
  · refine ⟨[Cmd.shell wd ("fossil" :: args)], ?_, Or.inr ⟨?_, ?_⟩⟩
    · simp [fossil, hc]
    · simp [fossil, hc]
    · simp [EndsCancelled, shellClass, hc]
  · refine ⟨[Cmd.shell wd ("fossil" :: args)], ?_, Or.inl ⟨?_, ?_⟩⟩
    · simp [fossil, hc]
    · simp [fossil, hc]
    · simp [NoCancel, shellClass, hc]

theorem cancelSpec_runFileOp (c : Cmd) (b : Bool)
    (hcl : ∀ env pre, shellClass env pre c = none) : CancelSpec (runFileOp c b) := by
  intro env s
  refine ⟨[c], ?_, Or.inl ⟨?_, ?_⟩⟩
  · simp only [runFileOp]
    split <;> simp
  · simp only [runFileOp]
    split <;> simp
  · simp [NoCancel, hcl]

theorem cancelSpec_runRmdir (d : String) : CancelSpec (runRmdir d) :=
  cancelSpec_runFileOp _ _ (fun _ _ => rfl)

theorem cancelSpec_runMkdir (d : String) : CancelSpec (runMkdir d) :=
  cancelSpec_runFileOp _ _ (fun _ _ => rfl)

theorem cancelSpec_runRmFile (f : String) (b : Bool) : CancelSpec (runRmFile f b) :=
  cancelSpec_runFileOp _ _ (fun _ _ => rfl)

theorem cancelSpec_pathExists (p : String) : CancelSpec (pathExists p) := by
  intro env s
  exact ⟨[Cmd.stat p], by simp [pathExists],
    Or.inl ⟨by simp [pathExists], by simp [NoCancel, shellClass]⟩⟩

theorem cancelSpec_bind {α β : Type} {m : M α} {k : α → M β}
    (hm : CancelSpec m) (hk : ∀ a, CancelSpec (k a)) : CancelSpec (m >>= k) := by
  intro env s
  obtain ⟨l1, ht1, hd1⟩ := hm env s
  rcases hms : m env s with ⟨r1, s1⟩
  rw [hms] at ht1 hd1
  simp only at ht1 hd1
  cases r1 with
  | error e =>
    refine ⟨l1, ?_, ?_⟩
    · simp [M_bind_eq, Mbind, hms, ht1]
    · rcases hd1 with ⟨hne, hnc⟩ | ⟨heq, hec⟩
      · exact Or.inl ⟨by simp [M_bind_eq, Mbind, hms]; intro h; exact hne (by simp [h]), hnc⟩
      · exact Or.inr ⟨by simp [M_bind_eq, Mbind, hms]; exact Except.error.inj heq, hec⟩
  | ok a =>
    obtain ⟨l2, ht2, hd2⟩ := hk a env s1
    have hbind : (m >>= k) env s = k a env s1 := by simp [M_bind_eq, Mbind, hms]
    rw [ht1] at ht2
    refine ⟨l1 ++ l2, by rw [hbind, ht2, List.append_assoc], ?_⟩
    have hnc1 : NoCancel env s.trace l1 := by
      rcases hd1 with ⟨_, hnc⟩ | ⟨heq, _⟩
      · exact hnc
      · exact absurd heq (by simp)
    rcases hd2 with ⟨hne2, hnc2⟩ | ⟨heq2, hec2⟩
    · exact Or.inl ⟨by rw [hbind]; exact hne2, noCancel_append hnc1 (by rw [← ht1]; exact hnc2)⟩
    · exact Or.inr ⟨by rw [hbind]; exact heq2,
        endsCancelled_append hnc1 (by rw [← ht1]; exact hec2)⟩

theorem cancelSpec_check_fossil_version : CancelSpec check_fossil_version := by
  unfold check_fossil_version
  apply cancelSpec_bind (cancelSpec_fossil _ _)
  intro cmd
  split
  · exact cancelSpec_mthrow _ (by decide)
  · split
    · exact cancelSpec_pure _
    · split
      · exact cancelSpec_mthrow _ (by decide)
      · refine cancelSpec_bind (cancelSpec_modifySt _ ?_) ?_
        · intro s
          rfl
        · intro _
          refine cancelSpec_bind (cancelSpec_modifySt _ ?_) ?_
          · intro s
            rfl
          · intro _
            exact cancelSpec_pure _

theorem cancelSpec_update_repo (cfg : FossilCfg) : CancelSpec (update_repo cfg) := by
  unfold update_repo
  apply cancelSpec_bind cancelSpec_getSt
  intro st
  apply cancelSpec_bind (cancelSpec_fossil _ _)
  intro cmd
  split
  · exact cancelSpec_pure _
  · apply cancelSpec_bind (cancelSpec_pathExists _)
    intro b
    split
    · exact cancelSpec_mthrow _ (by decide)
    · exact cancelSpec_pure _

theorem cancelSpec_fossil_open (cfg : FossilCfg) : CancelSpec (fossil_open cfg) := by
  unfold fossil_open
  apply cancelSpec_bind cancelSpec_getSt
  intro st
  split
  · apply cancelSpec_bind (cancelSpec_fossil _ _)
    intro _
    exact cancelSpec_pure _
  · apply cancelSpec_bind (cancelSpec_runMkdir _)
    intro _
    apply cancelSpec_bind (cancelSpec_fossil _ _)
    intro _
    exact cancelSpec_pure _

theorem cancelSpec_full_clean_copy (cfg : FossilCfg) (m : Method) :
    CancelSpec (full_clean_copy cfg m) := by
  unfold full_clean_copy
  split
  · apply cancelSpec_bind (cancelSpec_runRmdir _)
    intro _
    apply cancelSpec_bind (cancelSpec_fossil_open _)
    intro res
    split
    · exact cancelSpec_pure _
    · exact cancelSpec_pure _
  · exact cancelSpec_pure _

theorem cancelSpec_full_clean_fresh (cfg : FossilCfg) (m : Method) :
    CancelSpec (full_clean_fresh cfg m) := by
  unfold full_clean_fresh
  dsimp only
  split
  · apply cancelSpec_bind (cancelSpec_fossil _ _)
    intro cmd
    split
    · apply cancelSpec_bind (cancelSpec_fossil _ _)
      intro cmd2
      split
      · exact cancelSpec_full_clean_copy _ _
      · exact cancelSpec_pure _
    · apply cancelSpec_bind (cancelSpec_pure _)
      intro cmd2
      split
      · exact cancelSpec_full_clean_copy _ _
      · exact cancelSpec_pure _
  · exact cancelSpec_full_clean_copy _ _

theorem cancelSpec_full_clean_jp (cfg : FossilCfg) (st : St) (method1 : Method) :
    CancelSpec
      (if method1 = Method.clobber then do
        let cmd ← fossil "." ["clone", cfg.repourl, st.repopath]
        if cmd.results ≠ Results.success then pure cmd.results
        else full_clean_fresh cfg Method.copy
      else full_clean_fresh cfg method1) := by
  split
  · apply cancelSpec_bind (cancelSpec_fossil _ _)
    intro cmd
    split
    · exact cancelSpec_pure _
    · exact cancelSpec_full_clean_fresh _ _
  · exact cancelSpec_full_clean_fresh _ _

theorem cancelSpec_full_clean (cfg : FossilCfg) (m : Method) (rs : Option Results) :
    CancelSpec (full_clean cfg m rs) := by
  unfold full_clean
  apply cancelSpec_bind cancelSpec_getSt
  intro st
  dsimp only
  split
  · apply cancelSpec_bind (cancelSpec_runRmFile _ _)
    intro _
    apply cancelSpec_bind (cancelSpec_pure _)
    intro method1
    exact cancelSpec_full_clean_jp cfg st method1
  · split
    · apply cancelSpec_bind (cancelSpec_pure _)
      intro _
      apply cancelSpec_bind (cancelSpec_pure _)
      intro method1
      exact cancelSpec_full_clean_jp cfg st method1
    · apply cancelSpec_bind (cancelSpec_update_repo _)
      intro _
      apply cancelSpec_bind (cancelSpec_pure _)
      intro method1
      exact cancelSpec_full_clean_jp cfg st method1

theorem cancelSpec_incremental_clean (cfg : FossilCfg) :
    CancelSpec (incremental_clean cfg) := by
  unfold incremental_clean
  apply cancelSpec_bind (cancelSpec_update_repo _)
  intro rs
  split
  · exact cancelSpec_full_clean _ _ _
  · apply cancelSpec_bind (cancelSpec_fossil _ _)
    intro cmd
    split
    · exact cancelSpec_pure _
    · exact cancelSpec_full_clean _ _ _

theorem cancelSpec_fossil_checkout (cfg : FossilCfg) (br rev : Option String) :
    CancelSpec (fossil_checkout cfg br rev) := by
  unfold fossil_checkout
  apply cancelSpec_bind (cancelSpec_fossil _ _)
  intro _
  exact cancelSpec_pure _

theorem cancelSpec_fossil_status (cfg : FossilCfg) : CancelSpec (fossil_status cfg) := by
  unfold fossil_status
  apply cancelSpec_bind cancelSpec_getSt
  intro st
  split
  · apply cancelSpec_bind (cancelSpec_fossil _ _)
    intro cmd
    split
    · exact cancelSpec_pure _
    · split
      · exact cancelSpec_mthrow _ (by decide)
      · apply cancelSpec_bind (cancelSpec_setProp _ _)
        intro _
        apply cancelSpec_bind (cancelSpec_setProp _ _)
        intro _
        exact cancelSpec_pure _
  · apply cancelSpec_bind (cancelSpec_fossil _ _)
    intro cmd
    split
    · exact cancelSpec_pure _
    · dsimp only
      split
      · apply cancelSpec_bind (cancelSpec_setProp _ _)
        intro _
        split
        · apply cancelSpec_bind (cancelSpec_setProp _ _)
          intro _
          exact cancelSpec_pure _
        · apply cancelSpec_bind (cancelSpec_pure _)
          intro _
          exact cancelSpec_pure _
      · apply cancelSpec_bind (cancelSpec_pure _)
        intro _
        split
        · apply cancelSpec_bind (cancelSpec_setProp _ _)
          intro _
          exact cancelSpec_pure _
        · apply cancelSpec_bind (cancelSpec_pure _)
          intro _
          exact cancelSpec_pure _

theorem cancelSpec_run_vc (cfg : FossilCfg) (br rev : Option String) :
    CancelSpec (run_vc cfg br rev) := by
  unfold run_vc
  apply cancelSpec_bind cancelSpec_check_fossil_version
  intro res
  split
  · exact cancelSpec_pure _
  · refine cancelSpec_bind (cancelSpec_modifySt _ ?_) ?_
    · intro s
      rfl
    · intro _
      dsimp only
      split
      · apply cancelSpec_bind (cancelSpec_incremental_clean _)
        intro res2
        split
        · exact cancelSpec_pure _
        · apply cancelSpec_bind (cancelSpec_fossil_checkout _ _ _)
          intro res3
          split
          · exact cancelSpec_pure _
          · exact cancelSpec_fossil_status _
      · apply cancelSpec_bind (cancelSpec_full_clean _ _ _)
        intro res2
        split
        · exact cancelSpec_pure _
        · apply cancelSpec_bind (cancelSpec_fossil_checkout _ _ _)
          intro res3
          split
          · exact cancelSpec_pure _
          · exact cancelSpec_fossil_status _

theorem noCancel_lookup {env : Env} : ∀ {l t : List Cmd}, NoCancel env t l →
    ∀ (i : Nat) (c : Cmd), l.get? i = some c →
      shellClass env (t ++ l.take i) c ≠ some Results.cancelled := by
  intro l
  induction l with
  | nil =>
    intro t _ i c hget
    simp at hget
  | cons c0 cs ih =>
    intro t h i c hget
    cases i with
    | zero =>
      simp at hget
      subst hget
      simpa using h.1
    | succ j =>
      simp only [List.get?_cons_succ] at hget
      have := ih h.2 j c hget
      simpa [List.append_assoc] using this

theorem endsCancelled_lookup {env : Env} : ∀ {l t : List Cmd}, EndsCancelled env t l →
    ∀ (i : Nat) (c : Cmd), l.get? i = some c →
      shellClass env (t ++ l.take i) c = some Results.cancelled →
      i = l.length - 1 := by
  intro l
  induction l with
  | nil =>
    intro t h
    exact absurd h (by simp [EndsCancelled])
  | cons c0 cs ih =>
    intro t h i c hget hc
    cases cs with
    | nil =>
      cases i with
      | zero => rfl
      | succ j => simp at hget
    | cons d ds =>
      obtain ⟨hne, hrest⟩ := h
      cases i with
      | zero =>
        simp at hget
        subst hget
        exact absurd (by simpa using hc) hne
      | succ j =>
        simp only [List.get?_cons_succ] at hget
        have hj := ih hrest j c hget (by simpa [List.append_assoc] using hc)
        simp only [List.length_cons]
        simp only [List.length_cons] at hj
        omega

/-- C3: for every remote command issued anywhere in a reconciliation
run, if that command's result classification is cancelled, the run's
final outcome is cancelled and the command is the last of the trace;
cancellation propagates verbatim and never triggers fallback logic. -/
theorem c3_cancelled_command_is_last (cfg : FossilCfg) (br rev : Option String)
    (env : Env) (i : Nat) (c : Cmd)
    (hget : (runStep cfg br rev env).2.trace.get? i = some c)
    (hc : shellClass env ((runStep cfg br rev env).2.trace.take i) c =
      some Results.cancelled) :
    (runStep cfg br rev env).1 = Outcome.results Results.cancelled ∧
      i = (runStep cfg br rev env).2.trace.length - 1 := by
  obtain ⟨l, ht, hd⟩ := cancelSpec_run_vc cfg br rev env initSt
  rcases h : run_vc cfg br rev env initSt with ⟨r, sfin⟩
  rw [h] at ht hd
  simp only at ht hd
  have hstep2 : (runStep cfg br rev env).2 = sfin := by
    cases r with
    | ok v => simp [runStep, h]
    | error e => cases e <;> simp [runStep, h]
  rw [hstep2] at hget hc ⊢
  have htr : sfin.trace = l := by simpa [initSt] using ht
  rw [htr] at hget hc ⊢
  rcases hd with ⟨hne, hnc⟩ | ⟨heq, hec⟩
  · exact absurd hc (by simpa using noCancel_lookup hnc i c hget)
  · constructor
    · have hr : r = Except.error Exn.stepCancelled := heq
      subst hr
      simp [runStep, h]
    · simpa using endsCancelled_lookup hec i c hget (by simpa using hc)

/-- Witness for C3: a cancelled pull makes the run outcome cancelled and
the pull the last issued command. -/
theorem c3_witness :
    (runStep cfgIncr none none c3env).1 = Outcome.results Results.cancelled ∧
      1 = (runStep cfgIncr none none c3env).2.trace.length - 1 :=
  c3_cancelled_command_is_last cfgIncr none none c3env 1 pullCmd rfl rfl

/-- Witness for C2 at the concrete environment. -/
theorem c2_witness :
    runStep cfgIncr none none c2env =
      (Outcome.results Results.failure,
       { trace := [versionCmd, pullCmd, Cmd.stat "wkdir.fossil"], props := [],
         repopath := "wkdir.fossil",
         fossil_version := some (fossilVersionNumber "2.8".data),
         fossil_json := some ((findJsonApi FOSSIL_208).getD 0) }) :=
  c2_incremental_bad_repo_stops none none c2env FOSSIL_208 "2.8".data rfl rfl rfl rfl

/-- Witness for C9: an explicit revision is used as the checkout label. -/
theorem c9_witness :
    fossil_checkout cfgIncr (some "trunk") (some "abc123") c9env initSt =
      specCheckoutStep cfgIncr "abc123" c9env initSt :=
  (c9_checkout_resolution_no_retry cfgIncr (some "trunk") (some "abc123") c9env initSt).1
    "abc123" rfl (by decide)
